import Mathlib

set_option maxRecDepth 40000

/-
Verification of the episode segmentation and synthesis pipeline of
pdf_to_podcast.py.

The core of the script is two functions:

  split_text(full_text, words_per_episode):
      words = full_text.split()
      start = 0; episodes = []; idx = 1
      while start < len(words):
          end = min(len(words), start + words_per_episode)
          episode_text = " ".join(words[start:end])
          episodes.append((idx, episode_text))
          start = end
          idx += 1
      return episodes

  convert_pdf(pdf_path, engine, minutes, log_widget):
      (inside one try/except that turns any exception into an error popup)
      text = extract_text(pdf_path)
      if not text.strip(): error popup; return
      words_per_episode = minutes * 180
      episodes = split_text(text, words_per_episode)
      out_dir = <stem>_podcast; out_dir.mkdir(exist_ok=True)
      for idx, ep_text in episodes:
          out_file = out_dir / ("episode_" + format(idx, "02d") + ".mp3")
          log line: [tts] Generating <name>
          if engine == "edge-tts": asyncio.run(tts_edge_tts(ep_text, out_file))
          elif engine == "gtts": tts_gtts(ep_text, out_file)
          else: log line: [error] Unknown engine <engine>
      info popup: Created <n> MP3s in <out_dir>

We embed these shallowly.  Strings are Lean Strings; Python int is Lean Int;
the while loop is a fuel-indexed recursion (none = the loop did not finish
within the given fuel; a separate theorem certifies genuine divergence for
non-positive word budgets).  PDF extraction, the Tk widgets and the two
network TTS libraries are external collaborators: extracted text is a
parameter, the log widget is an accumulated list of lines, and each TTS
backend is an oracle returning Except (an exception, as raised by the
library, or success, after which the output file exists).
-/

/-- Embedding of Python str.split() (split on whitespace runs, dropping
empty pieces), processing the character list with an accumulator holding the
current word reversed.  Python str.isspace also accepts some rarer Unicode
space characters than Char.isWhitespace; the difference is irrelevant here. -/
def wordsAux : List Char → List Char → List String
  | [], [] => []
  | [], acc => [⟨acc.reverse⟩]
  | c :: cs, acc =>
    if c.isWhitespace then
      match acc with
      | [] => wordsAux cs []
      | _ :: _ => (⟨acc.reverse⟩ : String) :: wordsAux cs []
    else wordsAux cs (c :: acc)

/-- Python full_text.split(): the whitespace-normalized word sequence. -/
def pyWords (s : String) : List String := wordsAux s.data []

/-- Embedding of Python text.strip(): drop leading and trailing whitespace. -/
def pyStrip (s : String) : String :=
  ⟨((s.data.dropWhile Char.isWhitespace).reverse.dropWhile Char.isWhitespace).reverse⟩

/-- Embedding of the Python join of words by single ASCII spaces,
that is, the expression with the single-space separator string and join(ws). -/
def pyJoin : List String → String
  | [] => ""
  | [w] => w
  | w :: ws => w ++ " " ++ pyJoin ws

/-- Embedding of the Python list slice xs[a:b] for arbitrary Int bounds
(step 1): negative indices count from the end, and both bounds are clamped
into [0, len]. -/
def pySlice {α : Type} (xs : List α) (a b : Int) : List α :=
  (xs.take
      (if b < 0 then max ((xs.length : Int) + b) 0
        else min b (xs.length : Int)).toNat).drop
    (if a < 0 then max ((xs.length : Int) + a) 0
      else min a (xs.length : Int)).toNat

/-- The while loop of split_text, with fuel bounding the number of
iterations still allowed.  State: remaining fuel, the word list, the word
budget, and the Python variables start, idx and episodes (acc).  Returns
none when the loop is still running after fuel iterations. -/
def splitLoop (fuel : Nat) (words : List String) (wpe : Int) (start : Int)
    (idx : Nat) (acc : List (Nat × String)) : Option (List (Nat × String)) :=
  match fuel with
  | 0 => if start < (words.length : Int) then none else some acc
  | fuel + 1 =>
    if start < (words.length : Int) then
      let e := min (words.length : Int) (start + wpe)
      let episode_text := pyJoin (pySlice words start e)
      splitLoop fuel words wpe e (idx + 1) (acc ++ [(idx, episode_text)])
    else some acc

/-- Embedding of split_text(full_text, words_per_episode).  Fuel
(word count + 1) is ample: when the budget is positive every iteration
consumes at least one word, so the loop runs at most (word count)
iterations; none therefore only arises for non-positive budgets, where the
loop genuinely diverges (proved below). -/
def split_text (full_text : String) (words_per_episode : Int) :
    Option (List (Nat × String)) :=
  splitLoop ((pyWords full_text).length + 1) (pyWords full_text)
    words_per_episode 0 1 []

/-- Structural characterization of the loop for a positive word budget wpe:
peel the first wpe words as one chunk and recurse.  Proven equal to
splitLoop below; all segmentation reasoning happens here. -/
def chunks (wpe : Nat) (idx : Nat) (ws : List String) : List (Nat × String) :=
  match ws with
  | [] => []
  | w :: rest =>
    (idx, pyJoin (w :: rest.take (wpe - 1))) ::
      chunks wpe (idx + 1) (rest.drop (wpe - 1))
termination_by ws.length
decreasing_by simp [List.length_drop]; omega

/-- Embedding of the Python format specifier 02d applied to a chunk index:
the decimal representation, left-padded with zeros to width at least 2.
A Nat has at least one digit, so at most one zero is prepended. -/
def format02d (n : Nat) : String :=
  if (Nat.repr n).length < 2 then ("0") ++ Nat.repr n else Nat.repr n

/-- The output filename for chunk idx, from the f-string
episode_{idx:02d}.mp3 in convert_pdf. -/
def episodeFilename (idx : Nat) : String :=
  ("episode_") ++ format02d idx ++ (".mp3")

/-- The log line announcing the synthesis of one chunk. -/
def genLine (idx : Nat) : String :=
  ("[tts] Generating ") ++ episodeFilename idx ++ ("\n")

/-- The log line produced when the engine string is not recognized. -/
def unknownLine (engine : String) : String :=
  ("[error] Unknown engine ") ++ engine ++ ("\n")

/-- The log line announcing the run. -/
def infoLine (pdf_path : String) : String :=
  ("[info] Reading ") ++ pdf_path ++ ("\n")

/-- The message of the final success popup. -/
def createdMsg (n : Nat) (out_dir : String) : String :=
  ("Created ") ++ Nat.repr n ++ (" MP3s in ") ++ out_dir

/-- The message of the popup shown when no text was extracted. -/
def noTextMsg : String := ("No text could be extracted from PDF.")

/-- How one convert_pdf invocation ends: the final success popup
(messagebox.showinfo with its message), the error popup from the
top-level except or the no-text early return (messagebox.showerror),
or the loop in split_text never returning. -/
inductive ConvertOutcome : Type
  | doneInfo (msg : String)
  | errorPopup (msg : String)
  | hung
  deriving Repr, DecidableEq

/-- The observable side effects accumulated while the chunk loop runs:
lines inserted into the log widget, output files written (a backend call
that returns writes its file), and the backend synthesize calls made,
identified by output filename in call order. -/
structure LoopState : Type where
  log : List String
  files : List String
  calls : List String
  deriving Repr, DecidableEq

/-- Everything observable about one convert_pdf invocation. -/
structure ConvertResult : Type where
  dirCreated : Bool
  log : List String
  files : List String
  calls : List String
  outcome : ConvertOutcome
  deriving Repr, DecidableEq

/-- The chunk loop of convert_pdf.  For each (idx, ep_text) episode, in
order: log the Generating line, then dispatch on the engine string: a
known engine calls its synthesis oracle (ok means the file was written;
error e means the library raised, which aborts the loop and is returned
for the top-level except); an unknown engine logs the error line and
continues with the next chunk.  The two oracles stand for the external
edge_tts and gTTS libraries. -/
def convertLoop (engine : String)
    (edge_synth gtts_synth : String → String → Except String Unit) :
    List (Nat × String) → LoopState → LoopState × Option String
  | [], st => (st, none)
  | (idx, ep_text) :: rest, st =>
    let out_file := episodeFilename idx
    let st1 : LoopState := { st with log := st.log ++ [genLine idx] }
    if engine = ("edge-tts") then
      match edge_synth ep_text out_file with
      | Except.ok _ =>
        convertLoop engine edge_synth gtts_synth rest
          { st1 with files := st1.files ++ [out_file],
                     calls := st1.calls ++ [out_file] }
      | Except.error e => ({ st1 with calls := st1.calls ++ [out_file] }, some e)
    else if engine = ("gtts") then
      match gtts_synth ep_text out_file with
      | Except.ok _ =>
        convertLoop engine edge_synth gtts_synth rest
          { st1 with files := st1.files ++ [out_file],
                     calls := st1.calls ++ [out_file] }
      | Except.error e => ({ st1 with calls := st1.calls ++ [out_file] }, some e)
    else
      convertLoop engine edge_synth gtts_synth rest
        { st1 with log := st1.log ++ [unknownLine engine] }

/-- Embedding of convert_pdf(pdf_path, engine, minutes, log_widget).
Text extraction is external, so the extracted text is a parameter; the
PDF path and its stem name the log line and the output directory.  The
body mirrors the source: blank text shows the error popup and returns
(no directory, no calls); otherwise split_text runs on minutes * 180 (a
non-terminating loop is the hung outcome), the output directory is
created, the chunk loop runs, and either the raised exception reaches
the top-level except (error popup) or the Created-N success popup shows.
-/
def convert_pdf (pdf_path pdf_stem text engine : String) (minutes : Int)
    (edge_synth gtts_synth : String → String → Except String Unit) :
    ConvertResult :=
  let log0 := [infoLine pdf_path]
  if pyStrip text = ("") then
    { dirCreated := false, log := log0, files := [], calls := [],
      outcome := ConvertOutcome.errorPopup noTextMsg }
  else
    match split_text text (minutes * 180) with
    | none =>
      { dirCreated := false, log := log0, files := [], calls := [],
        outcome := ConvertOutcome.hung }
    | some episodes =>
      let out_dir := pdf_stem ++ ("_podcast")
      let r := convertLoop engine edge_synth gtts_synth episodes
        { log := log0, files := [], calls := [] }
      match r.2 with
      | some e =>
        { dirCreated := true, log := r.1.log, files := r.1.files,
          calls := r.1.calls, outcome := ConvertOutcome.errorPopup e }
      | none =>
        { dirCreated := true, log := r.1.log, files := r.1.files,
          calls := r.1.calls,
          outcome := ConvertOutcome.doneInfo (createdMsg episodes.length out_dir) }

/-- The oracle the loop consults for a known engine: the edge-tts library
when engine is edge-tts, and the gTTS library when engine is gtts. -/
def engineSynth (engine : String)
    (edge_synth gtts_synth : String → String → Except String Unit) :
    String → String → Except String Unit :=
  if engine = ("edge-tts") then edge_synth else gtts_synth

/-- The words a word list may consist of: nonempty and whitespace-free,
exactly what Python str.split() produces. -/
def isWordList (ws : List String) : Prop :=
  ∀ w ∈ ws, w.data ≠ [] ∧ ∀ c ∈ w.data, c.isWhitespace = false

/-- A backend oracle that always succeeds. -/
def synthOk : String → String → Except String Unit := fun _ _ => Except.ok ()

/-- A backend oracle that raises on the first episode file and succeeds on
every other. -/
def failFirst : String → String → Except String Unit := fun _ f =>
  if f = episodeFilename 1 then Except.error ("boom") else Except.ok ()

/-- A backend oracle that raises on the second episode file and succeeds on
every other. -/
def failSecond : String → String → Except String Unit := fun _ f =>
  if f = episodeFilename 2 then Except.error ("boom") else Except.ok ()

/-- A 200-word document (the word w repeated), exercising the 200-word,
one-minute example of the specification: the budget is 180 words, giving
one chunk of 180 words and one of 20. -/
def demoWords : List String := List.replicate 200 ("w")

/-- The 200-word document as a single string. -/
def demoText : String := pyJoin demoWords

/-- The first chunk the 200-word document yields at a 180-word budget. -/
def demoChunk1 : String := pyJoin (List.replicate 180 ("w"))

/-- The second chunk the 200-word document yields at a 180-word budget. -/
def demoChunk2 : String := pyJoin (List.replicate 20 ("w"))

/-! ### Properties of the word splitter -/

theorem wordsAux_nil_cons (a : Char) (as : List Char) :
    wordsAux [] (a :: as) = [(⟨(a :: as).reverse⟩ : String)] := rfl

theorem wordsAux_space_cons (cs : List Char) (a : Char) (as : List Char) :
    wordsAux (' ' :: cs) (a :: as) =
      (⟨(a :: as).reverse⟩ : String) :: wordsAux cs [] := rfl

theorem wordsAux_all_ws :
    ∀ cs : List Char, (∀ c ∈ cs, c.isWhitespace = true) → wordsAux cs [] = [] := by
  intro cs
  induction cs with
  | nil => intro _; rfl
  | cons c cs ih =>
    intro h
    have hc : c.isWhitespace = true := h c (by simp)
    simp only [wordsAux, hc, if_true]
    exact ih fun d hd => h d (by simp [hd])

theorem wordsAux_ne_nil :
    ∀ (cs acc : List Char), acc ≠ [] → wordsAux cs acc ≠ [] := by
  intro cs
  induction cs with
  | nil =>
    intro acc h
    cases acc with
    | nil => exact absurd rfl h
    | cons a as => simp [wordsAux]
  | cons c cs ih =>
    intro acc h
    cases acc with
    | nil => exact absurd rfl h
    | cons a as =>
      by_cases hc : c.isWhitespace = true
      · simp [wordsAux, hc]
      · simp only [wordsAux, hc, if_false]
        exact ih _ (by simp)

theorem wordsAux_eq_nil :
    ∀ cs : List Char, wordsAux cs [] = [] → ∀ c ∈ cs, c.isWhitespace = true := by
  intro cs
  induction cs with
  | nil => intro _ c hc; cases hc
  | cons c cs ih =>
    intro h d hd
    by_cases hc : c.isWhitespace = true
    · simp only [wordsAux, hc, if_true] at h
      rcases List.mem_cons.mp hd with rfl | hd
      · exact hc
      · exact ih h d hd
    · simp only [wordsAux, hc, if_false] at h
      exact absurd h (wordsAux_ne_nil cs [c] (by simp))

theorem pyWords_eq_nil_iff (s : String) :
    pyWords s = [] ↔ ∀ c ∈ s.data, c.isWhitespace = true :=
  ⟨wordsAux_eq_nil s.data, wordsAux_all_ws s.data⟩

theorem pyStrip_eq_empty_iff (s : String) :
    pyStrip s = ("") ↔ ∀ c ∈ s.data, c.isWhitespace = true := by
  constructor
  · intro h
    have hdata :
        ((s.data.dropWhile Char.isWhitespace).reverse.dropWhile
          Char.isWhitespace).reverse = [] :=
      congrArg String.data h
    rw [List.reverse_eq_nil_iff, List.dropWhile_eq_nil_iff] at hdata
    intro c hc
    have hsplit := List.takeWhile_append_dropWhile Char.isWhitespace s.data
    rw [← hsplit] at hc
    rcases List.mem_append.mp hc with h1 | h2
    · exact List.mem_takeWhile_imp h1
    · exact hdata c (List.mem_reverse.mpr h2)
  · intro h
    have h1 : s.data.dropWhile Char.isWhitespace = [] :=
      List.dropWhile_eq_nil_iff.mpr h
    show pyStrip s = ("")
    unfold pyStrip
    rw [h1]
    rfl

theorem wordsAux_isWordList :
    ∀ (cs acc : List Char), (∀ c ∈ acc, c.isWhitespace = false) →
      isWordList (wordsAux cs acc) := by
  intro cs
  induction cs with
  | nil =>
    intro acc hacc
    cases acc with
    | nil => intro w hw; cases hw
    | cons a as =>
      intro w hw
      simp only [wordsAux, List.mem_singleton] at hw
      subst hw
      refine ⟨by simp, ?_⟩
      intro c hc
      exact hacc c (List.mem_reverse.mp hc)
  | cons c cs ih =>
    intro acc hacc
    by_cases hc : c.isWhitespace = true
    · cases acc with
      | nil =>
        simp only [wordsAux, hc, if_true]
        exact ih [] (by simp)
      | cons a as =>
        simp only [wordsAux, hc, if_true]
        intro w hw
        rcases List.mem_cons.mp hw with rfl | hw
        · refine ⟨by simp, ?_⟩
          intro d hd
          exact hacc d (List.mem_reverse.mp hd)
        · exact ih [] (by simp) w hw
    · simp only [wordsAux, hc, if_false]
      refine ih (c :: acc) ?_
      intro d hd
      rcases List.mem_cons.mp hd with rfl | hd
      · simpa using hc
      · exact hacc d hd

theorem isWordList_pyWords (s : String) : isWordList (pyWords s) :=
  wordsAux_isWordList s.data [] (by simp)

theorem wordsAux_append :
    ∀ (w cs acc : List Char), (∀ c ∈ w, c.isWhitespace = false) →
      wordsAux (w ++ cs) acc = wordsAux cs (w.reverse ++ acc) := by
  intro w
  induction w with
  | nil => intro cs acc _; rfl
  | cons c w ih =>
    intro cs acc h
    have hc : c.isWhitespace = false := h c (by simp)
    simp only [List.cons_append, wordsAux, hc, Bool.false_eq_true, if_false]
    rw [List.reverse_cons, List.append_assoc]
    exact ih cs (c :: acc) fun d hd => h d (by simp [hd])

/-! ### Properties of the joiner -/

theorem pyJoin_cons (w : String) (ws : List String) (h : ws ≠ []) :
    pyJoin (w :: ws) = w ++ (" ") ++ pyJoin ws := by
  cases ws with
  | nil => exact absurd rfl h
  | cons x xs => rfl

theorem pyJoin_append (A B : List String) (hA : A ≠ []) (hB : B ≠ []) :
    pyJoin (A ++ B) = pyJoin A ++ (" ") ++ pyJoin B := by
  induction A with
  | nil => exact absurd rfl hA
  | cons a A ih =>
    cases A with
    | nil =>
      show pyJoin (a :: B) = pyJoin [a] ++ (" ") ++ pyJoin B
      rw [pyJoin_cons a B hB]
      rfl
    | cons a2 A2 =>
      rw [List.cons_append, pyJoin_cons a ((a2 :: A2) ++ B) (by simp),
        ih (by simp), pyJoin_cons a (a2 :: A2) (by simp)]
      simp [String.append_assoc]

theorem pyWords_pyJoin : ∀ g : List String, isWordList g → pyWords (pyJoin g) = g := by
  intro g
  induction g with
  | nil => intro _; rfl
  | cons w gs ih =>
    intro h
    obtain ⟨hw1, hw2⟩ := h w (by simp)
    cases gs with
    | nil =>
      show wordsAux (pyJoin [w]).data [] = [w]
      have hw' : (pyJoin [w]).data = w.data ++ [] := by simp [pyJoin]
      rw [hw', wordsAux_append w.data [] [] hw2]
      rcases hrev : w.data.reverse with _ | ⟨a, as⟩
      · exact absurd (by simpa using congrArg List.reverse hrev) hw1
      · rw [List.append_nil, wordsAux_nil_cons]
        congr 1
        apply String.ext
        show (a :: as).reverse = w.data
        rw [← hrev, List.reverse_reverse]
    | cons g2 gs2 =>
      rw [pyJoin_cons w (g2 :: gs2) (by simp)]
      show wordsAux (w ++ (" ") ++ pyJoin (g2 :: gs2)).data [] = w :: g2 :: gs2
      rw [String.data_append, String.data_append]
      rw [List.append_assoc, wordsAux_append w.data _ [] hw2]
      show wordsAux (' ' :: (pyJoin (g2 :: gs2)).data) (w.data.reverse ++ []) =
        w :: g2 :: gs2
      rw [List.append_nil]
      rcases hrev : w.data.reverse with _ | ⟨a, as⟩
      · exact absurd (by simpa using congrArg List.reverse hrev) hw1
      · rw [wordsAux_space_cons]
        have htail : wordsAux (pyJoin (g2 :: gs2)).data [] = g2 :: gs2 :=
          ih fun x hx => h x (by simp [hx])
        rw [htail]
        congr 1
        apply String.ext
        show (a :: as).reverse = w.data
        rw [← hrev, List.reverse_reverse]

/-! ### Properties of the chunk characterization -/

theorem chunks_nil (wpe idx : Nat) : chunks wpe idx [] = [] := by
  rw [chunks.eq_def]

theorem chunks_cons (wpe idx : Nat) (w : String) (rest : List String) :
    chunks wpe idx (w :: rest) =
      (idx, pyJoin (w :: rest.take (wpe - 1))) ::
        chunks wpe (idx + 1) (rest.drop (wpe - 1)) := by
  rw [chunks.eq_def]

theorem chunks_eq_nil_iff (wpe idx : Nat) (ws : List String) :
    chunks wpe idx ws = [] ↔ ws = [] := by
  cases ws with
  | nil => simp [chunks_nil]
  | cons w rest => simp [chunks_cons]

theorem chunks_map_fst (wpe : Nat) :
    ∀ (idx : Nat) (ws : List String),
      (chunks wpe idx ws).map Prod.fst =
        List.range' idx (chunks wpe idx ws).length := by
  intro idx ws
  induction idx, ws using chunks.induct wpe with
  | case1 idx => simp [chunks_nil]
  | case2 idx w rest ih =>
    rw [chunks_cons]
    simp only [List.map_cons, List.length_cons, List.range'_succ]
    rw [ih]

theorem chunks_join (wpe : Nat) (hw : 1 ≤ wpe) :
    ∀ (idx : Nat) (ws : List String),
      pyJoin ((chunks wpe idx ws).map Prod.snd) = pyJoin ws := by
  intro idx ws
  induction idx, ws using chunks.induct wpe with
  | case1 idx => simp [chunks_nil]
  | case2 idx w rest ih =>
    rw [chunks_cons]
    by_cases hd : rest.drop (wpe - 1) = []
    · have htake : rest.take (wpe - 1) = rest :=
        List.take_of_length_le (List.drop_eq_nil_iff.mp hd)
      rw [hd, chunks_nil] at ih ⊢
      rw [htake]
      rfl
    · have hchunks_ne : chunks wpe (idx + 1) (rest.drop (wpe - 1)) ≠ [] := by
        rw [ne_eq, chunks_eq_nil_iff]
        exact hd
      have hmap_ne :
          (chunks wpe (idx + 1) (rest.drop (wpe - 1))).map Prod.snd ≠ [] := by
        simpa using hchunks_ne
      rw [List.map_cons, pyJoin_cons _ _ hmap_ne, ih]
      have hsplit : w :: rest = (w :: rest.take (wpe - 1)) ++ rest.drop (wpe - 1) := by
        rw [List.cons_append, List.take_append_drop]
      conv_rhs => rw [hsplit]
      rw [pyJoin_append _ _ (by simp) hd]

theorem chunks_length (wpe : Nat) (hw : 1 ≤ wpe) :
    ∀ (idx : Nat) (ws : List String),
      (chunks wpe idx ws).length = (ws.length + wpe - 1) / wpe := by
  intro idx ws
  induction idx, ws using chunks.induct wpe with
  | case1 idx =>
    rw [chunks_nil]
    rw [Nat.div_eq_of_lt (show ([] : List String).length + wpe - 1 < wpe by
      simp only [List.length_nil]
      omega)]
    rfl
  | case2 idx w rest ih =>
    rw [chunks_cons]
    simp only [List.length_cons, List.length_drop] at ih ⊢
    rw [ih]
    rcases Nat.lt_or_ge rest.length wpe with hm | hm
    · have l1 : rest.length - (wpe - 1) + wpe - 1 < wpe := by omega
      have l2 : rest.length + 1 + wpe - 1 = rest.length + wpe := by omega
      rw [Nat.div_eq_of_lt l1, l2, Nat.add_div_right _ (by omega),
        Nat.div_eq_of_lt hm]
    · have l1 : rest.length - (wpe - 1) + wpe - 1 = rest.length - wpe + wpe := by
        omega
      have l2 : rest.length + 1 + wpe - 1 = rest.length - wpe + wpe + wpe := by
        omega
      rw [l1, l2, Nat.add_div_right _ (by omega), Nat.add_div_right _ (by omega),
        Nat.add_div_right _ (by omega)]

theorem chunks_single (wpe idx : Nat) (hw : 1 ≤ wpe) (ws : List String)
    (h1 : ws ≠ []) (h2 : ws.length ≤ wpe) :
    chunks wpe idx ws = [(idx, pyJoin ws)] := by
  cases ws with
  | nil => exact absurd rfl h1
  | cons w rest =>
    rw [chunks_cons]
    have hlen : rest.length ≤ wpe - 1 := by
      simp only [List.length_cons] at h2
      omega
    rw [List.take_of_length_le hlen, List.drop_eq_nil_of_le hlen, chunks_nil]

theorem chunks_words_join (wpe : Nat) (hw : 1 ≤ wpe) :
    ∀ (idx : Nat) (ws : List String), isWordList ws →
      ((chunks wpe idx ws).map fun p => pyWords p.2).flatten = ws := by
  intro idx ws
  induction idx, ws using chunks.induct wpe with
  | case1 idx => intro _; simp [chunks_nil]
  | case2 idx w rest ih =>
    intro hws
    rw [chunks_cons]
    simp only [List.map_cons, List.flatten_cons]
    have hgroup : isWordList (w :: rest.take (wpe - 1)) := by
      intro x hx
      rcases List.mem_cons.mp hx with rfl | hx
      · exact hws x (by simp)
      · exact hws x (List.mem_cons_of_mem _ (List.mem_of_mem_take hx))
    rw [pyWords_pyJoin _ hgroup,
      ih fun x hx => hws x (List.mem_cons_of_mem _ (List.mem_of_mem_drop hx))]
    rw [List.cons_append, List.take_append_drop]

theorem chunks_dropLast_count (wpe : Nat) (hw : 1 ≤ wpe) :
    ∀ (idx : Nat) (ws : List String), isWordList ws →
      ∀ p ∈ (chunks wpe idx ws).dropLast, (pyWords p.2).length = wpe := by
  intro idx ws
  induction idx, ws using chunks.induct wpe with
  | case1 idx => intro _ p hp; simp [chunks_nil] at hp
  | case2 idx w rest ih =>
    intro hws p hp
    rw [chunks_cons] at hp
    by_cases hd : rest.drop (wpe - 1) = []
    · rw [hd, chunks_nil] at hp
      simp at hp
    · have hne : chunks wpe (idx + 1) (rest.drop (wpe - 1)) ≠ [] := by
        rw [ne_eq, chunks_eq_nil_iff]
        exact hd
      rw [List.dropLast_cons_of_ne_nil hne] at hp
      rcases List.mem_cons.mp hp with rfl | hp
      · have hgroup : isWordList (w :: rest.take (wpe - 1)) := by
          intro x hx
          rcases List.mem_cons.mp hx with rfl | hx
          · exact hws x (by simp)
          · exact hws x (List.mem_cons_of_mem _ (List.mem_of_mem_take hx))
        show (pyWords (pyJoin (w :: rest.take (wpe - 1)))).length = wpe
        rw [pyWords_pyJoin _ hgroup]
        have hlen : wpe - 1 ≤ rest.length := by
          rcases Nat.lt_or_ge rest.length (wpe - 1) with h | h
          · exact absurd (List.drop_eq_nil_of_le (Nat.le_of_lt h)) hd
          · exact h
        simp only [List.length_cons, List.length_take]
        omega
      · exact ih
          (fun x hx => hws x (List.mem_cons_of_mem _ (List.mem_of_mem_drop hx)))
          p hp

theorem chunks_getLast?_count (wpe : Nat) (hw : 1 ≤ wpe) :
    ∀ (idx : Nat) (ws : List String), isWordList ws →
      ∀ p, (chunks wpe idx ws).getLast? = some p →
        1 ≤ (pyWords p.2).length ∧ (pyWords p.2).length ≤ wpe := by
  intro idx ws
  induction idx, ws using chunks.induct wpe with
  | case1 idx => intro _ p hp; rw [chunks_nil] at hp; cases hp
  | case2 idx w rest ih =>
    intro hws p hp
    rw [chunks_cons] at hp
    rcases hc : chunks wpe (idx + 1) (rest.drop (wpe - 1)) with _ | ⟨q, qs⟩
    · rw [hc] at hp
      simp only [List.getLast?_singleton, Option.some.injEq] at hp
      subst hp
      have hgroup : isWordList (w :: rest.take (wpe - 1)) := by
        intro x hx
        rcases List.mem_cons.mp hx with rfl | hx
        · exact hws x (by simp)
        · exact hws x (List.mem_cons_of_mem _ (List.mem_of_mem_take hx))
      show 1 ≤ (pyWords (pyJoin (w :: rest.take (wpe - 1)))).length ∧
        (pyWords (pyJoin (w :: rest.take (wpe - 1)))).length ≤ wpe
      rw [pyWords_pyJoin _ hgroup]
      simp only [List.length_cons, List.length_take]
      omega
    · rw [hc, List.getLast?_cons_cons] at hp
      rw [← hc] at hp
      exact ih
        (fun x hx => hws x (List.mem_cons_of_mem _ (List.mem_of_mem_drop hx)))
        p hp

/-! ### The while loop agrees with the chunk characterization -/

theorem take_min_length {α : Type} (l : List α) (k : Nat) :
    l.take (min l.length k) = l.take k := by
  rcases Nat.le_total l.length k with h | h
  · rw [Nat.min_eq_left h, List.take_length, List.take_of_length_le h]
  · rw [Nat.min_eq_right h]

theorem drop_min_length {α : Type} (l : List α) (k : Nat) :
    l.drop (min l.length k) = l.drop k := by
  rcases Nat.le_total l.length k with h | h
  · rw [Nat.min_eq_left h, List.drop_length, List.drop_eq_nil_of_le h]
  · rw [Nat.min_eq_right h]

theorem pySlice_natCast (xs : List String) (a b : Nat) (hab : a ≤ b)
    (hb : b ≤ xs.length) :
    pySlice xs (a : Int) (b : Int) = (xs.drop a).take (b - a) := by
  unfold pySlice
  rw [if_neg (by omega : ¬((a : Int) < 0)), if_neg (by omega : ¬((b : Int) < 0))]
  have h1 : min (a : Int) (xs.length : Int) = (a : Int) := by omega
  have h2 : min (b : Int) (xs.length : Int) = (b : Int) := by omega
  rw [h1, h2, Int.toNat_natCast, Int.toNat_natCast, List.take_drop,
    show a + (b - a) = b from by omega]

theorem splitLoop_step (fuel : Nat) (words : List String) (wpe start : Int)
    (idx : Nat) (acc : List (Nat × String)) (h : start < (words.length : Int)) :
    splitLoop (fuel + 1) words wpe start idx acc =
      splitLoop fuel words wpe (min (words.length : Int) (start + wpe)) (idx + 1)
        (acc ++ [(idx,
          pyJoin (pySlice words start (min (words.length : Int) (start + wpe))))]) := by
  rw [splitLoop, if_pos h]

theorem splitLoop_stop (fuel : Nat) (words : List String) (wpe start : Int)
    (idx : Nat) (acc : List (Nat × String)) (h : ¬(start < (words.length : Int))) :
    splitLoop fuel words wpe start idx acc = some acc := by
  cases fuel with
  | zero => rw [splitLoop, if_neg h]
  | succ fuel => rw [splitLoop, if_neg h]

theorem splitLoop_eq_chunks (wpe : Int) (hw : 1 ≤ wpe) (words : List String) :
    ∀ (fuel : Nat) (start : Nat) (idx : Nat) (acc : List (Nat × String)),
      words.length - start ≤ fuel →
      splitLoop fuel words wpe (start : Int) idx acc =
        some (acc ++ chunks wpe.toNat idx (words.drop start)) := by
  intro fuel
  induction fuel with
  | zero =>
    intro start idx acc hfuel
    have hge : words.length ≤ start := by omega
    rw [splitLoop_stop _ _ _ _ _ _ (by omega : ¬((start : Int) < (words.length : Int)))]
    rw [List.drop_eq_nil_of_le hge, chunks_nil, List.append_nil]
  | succ fuel ih =>
    intro start idx acc hfuel
    by_cases hlt : start < words.length
    · have hcond : (start : Int) < (words.length : Int) := by omega
      rw [splitLoop_step _ _ _ _ _ _ hcond]
      have hk : 1 ≤ wpe.toNat := by omega
      have hmin : min (words.length : Int) ((start : Int) + wpe) =
          ((min words.length (start + wpe.toNat) : Nat) : Int) := by
        push_cast
        omega
      rw [hmin]
      set eN : Nat := min words.length (start + wpe.toNat) with heN
      have hse : start ≤ eN := by omega
      have hel : eN ≤ words.length := by omega
      rw [pySlice_natCast words start eN hse hel]
      have hdl : (words.drop start).length = words.length - start :=
        List.length_drop start words
      rcases hl : words.drop start with _ | ⟨w, rest⟩
      · exfalso
        rw [hl] at hdl
        simp at hdl
        omega
      · obtain ⟨k, hk2⟩ : ∃ k, wpe.toNat = k + 1 := ⟨wpe.toNat - 1, by omega⟩
        have htake : (w :: rest).take (eN - start) =
            w :: rest.take (wpe.toNat - 1) := by
          have h1 : eN - start = min (w :: rest).length wpe.toNat := by
            rw [← hl, hdl]
            omega
          rw [h1, take_min_length, hk2, List.take_succ_cons]
          simp
        have hdrop : words.drop eN = rest.drop (wpe.toNat - 1) := by
          have h2 : words.drop eN = ((w :: rest) : List String).drop (eN - start) := by
            rw [← hl, List.drop_drop]
            congr 1
            omega
          have h3 : eN - start = min ((w :: rest) : List String).length wpe.toNat := by
            rw [← hl, hdl]
            omega
          rw [h2, h3, drop_min_length, hk2, List.drop_succ_cons]
          simp
        rw [htake]
        have hfuel2 : words.length - eN ≤ fuel := by omega
        rw [ih eN (idx + 1) (acc ++ [(idx, pyJoin (w :: rest.take (wpe.toNat - 1)))])
          hfuel2]
        rw [hdrop, chunks_cons]
        rw [List.append_assoc]
        rfl
    · have hge : words.length ≤ start := by omega
      rw [splitLoop_stop _ _ _ _ _ _ (by omega : ¬((start : Int) < (words.length : Int)))]
      rw [List.drop_eq_nil_of_le hge, chunks_nil, List.append_nil]

theorem splitLoop_none_of_nonpos (words : List String) (wpe : Int) (hw : wpe ≤ 0) :
    ∀ (fuel : Nat) (start : Int) (idx : Nat) (acc : List (Nat × String)),
      start < (words.length : Int) →
      splitLoop fuel words wpe start idx acc = none := by
  intro fuel
  induction fuel with
  | zero =>
    intro start idx acc h
    rw [splitLoop, if_pos h]
  | succ fuel ih =>
    intro start idx acc h
    rw [splitLoop_step _ _ _ _ _ _ h]
    exact ih _ _ _ (by omega)

theorem split_text_eq_chunks (t : String) (wpe : Int) (hw : 1 ≤ wpe) :
    split_text t wpe = some (chunks wpe.toNat 1 (pyWords t)) := by
  unfold split_text
  have h := splitLoop_eq_chunks wpe hw (pyWords t) ((pyWords t).length + 1) 0 1 []
    (by omega)
  simpa using h

theorem split_text_none_of_nonpos (t : String) (wpe : Int) (hw : wpe ≤ 0)
    (ht : pyWords t ≠ []) : split_text t wpe = none := by
  unfold split_text
  apply splitLoop_none_of_nonpos _ _ hw
  have : 0 < (pyWords t).length := List.length_pos.mpr ht
  omega

theorem split_text_blank (t : String) (ht : pyWords t = []) (wpe : Int) :
    split_text t wpe = some [] := by
  unfold split_text
  rw [ht]
  rfl

/-! ### Length of decimal representations (for the filename format) -/

theorem toDigitsCore_length_mono (b : Nat) :
    ∀ (f n : Nat) (tl : List Char),
      tl.length ≤ (Nat.toDigitsCore b f n tl).length := by
  intro f
  induction f with
  | zero => intro n tl; exact Nat.le_refl _
  | succ f ih =>
    intro n tl
    rw [Nat.toDigitsCore]
    by_cases h : n / b = 0
    · rw [if_pos h]
      simp
    · rw [if_neg h]
      calc tl.length ≤ (Nat.digitChar (n % b) :: tl).length := by simp
        _ ≤ _ := ih (n / b) (Nat.digitChar (n % b) :: tl)

theorem toDigitsCore_length_succ (b : Nat) (f n : Nat) (tl : List Char) :
    tl.length + 1 ≤ (Nat.toDigitsCore b (f + 1) n tl).length := by
  rw [Nat.toDigitsCore]
  by_cases h : n / b = 0
  · rw [if_pos h]
    simp
  · rw [if_neg h]
    calc tl.length + 1 = (Nat.digitChar (n % b) :: tl).length := by simp
      _ ≤ _ := toDigitsCore_length_mono b f (n / b) (Nat.digitChar (n % b) :: tl)

theorem repr_length_ge_two (n : Nat) (h : 10 ≤ n) : 2 ≤ (Nat.repr n).length := by
  simp only [Nat.repr, Nat.toDigits, String.length, List.asString]
  rw [Nat.toDigitsCore]
  have hd : ¬(n / 10 = 0) := by
    intro h0
    have := Nat.div_eq_of_lt (show n < 10 by omega)
    omega
  rw [if_neg hd]
  rcases hn : n with _ | m
  · omega
  · calc (2 : Nat) = [Nat.digitChar (n % 10)].length + 1 := by simp
      _ ≤ _ := by
        rw [← hn]
        have hpos : ∃ f, n = f + 1 := ⟨n - 1, by omega⟩
        obtain ⟨f, hf⟩ := hpos
        rw [hf]
        exact toDigitsCore_length_succ 10 f ((f + 1) / 10) [Nat.digitChar ((f + 1) % 10)]

theorem repr_length_lt_two_iff (n : Nat) : (Nat.repr n).length < 2 ↔ n < 10 := by
  constructor
  · intro h
    by_contra hge
    have := repr_length_ge_two n (by omega)
    omega
  · intro h
    have := Nat.repr_length n 1 (by omega) (by omega)
    omega

theorem format02d_eq (n : Nat) :
    format02d n = if n < 10 then ("0") ++ Nat.repr n else Nat.repr n := by
  unfold format02d
  by_cases h : n < 10
  · rw [if_pos ((repr_length_lt_two_iff n).mpr h), if_pos h]
  · rw [if_neg (fun hl => h ((repr_length_lt_two_iff n).mp hl)), if_neg h]

/-! ### Behavior of the chunk loop of convert_pdf -/

theorem convertLoop_nil (engine : String)
    (es gs : String → String → Except String Unit) (st : LoopState) :
    convertLoop engine es gs [] st = (st, none) := rfl

theorem convertLoop_unknown (engine : String) (h1 : engine ≠ ("edge-tts"))
    (h2 : engine ≠ ("gtts")) (es gs : String → String → Except String Unit) :
    ∀ (eps : List (Nat × String)) (st : LoopState),
      convertLoop engine es gs eps st =
        ({ st with log := st.log ++
            eps.flatMap fun p => [genLine p.1, unknownLine engine] }, none) := by
  intro eps
  induction eps with
  | nil => intro st; simp [convertLoop]
  | cons p rest ih =>
    intro st
    obtain ⟨idx, t⟩ := p
    rw [convertLoop, if_neg h1, if_neg h2, ih]
    simp [List.flatMap_cons, List.append_assoc]

theorem convertLoop_fail (engine : String)
    (hk : engine = ("edge-tts") ∨ engine = ("gtts"))
    (es gs : String → String → Except String Unit) (i : Nat) (t e : String) :
    ∀ (pre post : List (Nat × String)) (st : LoopState),
      (∀ p ∈ pre, engineSynth engine es gs p.2 (episodeFilename p.1) = Except.ok ()) →
      engineSynth engine es gs t (episodeFilename i) = Except.error e →
      convertLoop engine es gs (pre ++ (i, t) :: post) st =
        ({ st with
            log := st.log ++ pre.map (fun p => genLine p.1) ++ [genLine i],
            files := st.files ++ pre.map fun p => episodeFilename p.1,
            calls := st.calls ++ pre.map (fun p => episodeFilename p.1) ++
              [episodeFilename i] }, some e) := by
  intro pre
  induction pre with
  | nil =>
    intro post st _ hfail
    rcases hk with he | hg
    · subst he
      rw [List.nil_append, convertLoop, if_pos rfl]
      have hes : es t (episodeFilename i) = Except.error e := by
        have : engineSynth ("edge-tts") es gs = es := if_pos rfl
        rw [← this]
        exact hfail
      rw [hes]
      simp
    · subst hg
      rw [List.nil_append, convertLoop, if_neg (by decide), if_pos rfl]
      have hgs : gs t (episodeFilename i) = Except.error e := by
        have : engineSynth ("gtts") es gs = gs := if_neg (by decide)
        rw [← this]
        exact hfail
      rw [hgs]
      simp
  | cons p pre ih =>
    intro post st hok hfail
    obtain ⟨j, u⟩ := p
    have hju : engineSynth engine es gs u (episodeFilename j) = Except.ok () :=
      hok (j, u) (by simp)
    have hok2 : ∀ q ∈ pre,
        engineSynth engine es gs q.2 (episodeFilename q.1) = Except.ok () :=
      fun q hq => hok q (by simp [hq])
    rcases hk with he | hg
    · subst he
      rw [List.cons_append, convertLoop, if_pos rfl]
      have hes : es u (episodeFilename j) = Except.ok () := by
        have h0 : engineSynth ("edge-tts") es gs = es := if_pos rfl
        rw [← h0]
        exact hju
      rw [hes, ih post _ hok2 hfail]
      simp [List.append_assoc]
    · subst hg
      rw [List.cons_append, convertLoop, if_neg (by decide), if_pos rfl]
      have hgs : gs u (episodeFilename j) = Except.ok () := by
        have h0 : engineSynth ("gtts") es gs = gs := if_neg (by decide)
        rw [← h0]
        exact hju
      rw [hgs, ih post _ hok2 hfail]
      simp [List.append_assoc]

/-! ### Unfolding convert_pdf along its control-flow paths -/

theorem convert_pdf_blank (pdf_path pdf_stem text engine : String) (minutes : Int)
    (es gs : String → String → Except String Unit)
    (hblank : pyStrip text = ("")) :
    convert_pdf pdf_path pdf_stem text engine minutes es gs =
      { dirCreated := false, log := [infoLine pdf_path], files := [], calls := [],
        outcome := ConvertOutcome.errorPopup noTextMsg } := by
  unfold convert_pdf
  rw [if_pos hblank]

theorem convert_pdf_hung (pdf_path pdf_stem text engine : String) (minutes : Int)
    (es gs : String → String → Except String Unit)
    (hstrip : ¬(pyStrip text = ("")))
    (hnone : split_text text (minutes * 180) = none) :
    convert_pdf pdf_path pdf_stem text engine minutes es gs =
      { dirCreated := false, log := [infoLine pdf_path], files := [], calls := [],
        outcome := ConvertOutcome.hung } := by
  unfold convert_pdf
  rw [if_neg hstrip, hnone]

theorem convert_pdf_loop_none (pdf_path pdf_stem text engine : String)
    (minutes : Int) (es gs : String → String → Except String Unit)
    (hstrip : ¬(pyStrip text = (""))) (eps : List (Nat × String))
    (hsplit : split_text text (minutes * 180) = some eps) (st' : LoopState)
    (hloop : convertLoop engine es gs eps ⟨[infoLine pdf_path], [], []⟩ =
      (st', none)) :
    convert_pdf pdf_path pdf_stem text engine minutes es gs =
      { dirCreated := true, log := st'.log, files := st'.files, calls := st'.calls,
        outcome := ConvertOutcome.doneInfo
          (createdMsg eps.length (pdf_stem ++ ("_podcast"))) } := by
  unfold convert_pdf
  rw [if_neg hstrip, hsplit]
  simp only [hloop]

theorem convert_pdf_loop_some (pdf_path pdf_stem text engine : String)
    (minutes : Int) (es gs : String → String → Except String Unit)
    (hstrip : ¬(pyStrip text = (""))) (eps : List (Nat × String))
    (hsplit : split_text text (minutes * 180) = some eps) (st' : LoopState)
    (e : String)
    (hloop : convertLoop engine es gs eps ⟨[infoLine pdf_path], [], []⟩ =
      (st', some e)) :
    convert_pdf pdf_path pdf_stem text engine minutes es gs =
      { dirCreated := true, log := st'.log, files := st'.files, calls := st'.calls,
        outcome := ConvertOutcome.errorPopup e } := by
  unfold convert_pdf
  rw [if_neg hstrip, hsplit]
  simp only [hloop]

/-! ### Claims about the Segmenter -/

/-- C4: for every input text and every positive words_per_chunk, segmentation
is lossless: joining all produced chunk texts in index order with single ASCII
spaces yields exactly the whitespace-normalized word sequence of the input (no
words dropped, duplicated, or reordered); equivalently, the chunk word lists
concatenate to exactly the input word list. -/
theorem c4_segmentation_lossless (t : String) (wpe : Int) (hw : 1 ≤ wpe)
    (es : List (Nat × String)) (hsplit : split_text t wpe = some es) :
    pyJoin (es.map Prod.snd) = pyJoin (pyWords t) ∧
      (es.map fun p => pyWords p.2).flatten = pyWords t := by
  rw [split_text_eq_chunks t wpe hw] at hsplit
  injection hsplit with h
  subst h
  exact ⟨chunks_join wpe.toNat (by omega) 1 (pyWords t),
    chunks_words_join wpe.toNat (by omega) 1 (pyWords t) (isWordList_pyWords t)⟩

/-- Witness for C4 at the input "hello  world\nfoo" with a 2-word budget. -/
theorem c4_witness :
    pyJoin (([(1, ("hello world")), (2, ("foo"))] :
        List (Nat × String)).map Prod.snd) =
      pyJoin (pyWords ("hello  world\nfoo")) ∧
      (([(1, ("hello world")), (2, ("foo"))] :
        List (Nat × String)).map fun p => pyWords p.2).flatten =
        pyWords ("hello  world\nfoo") :=
  c4_segmentation_lossless ("hello  world\nfoo") 2 (by decide)
    [(1, ("hello world")), (2, ("foo"))] (by decide)

/-- C5: for every input text and every positive words_per_chunk the Segmenter
terminates: the loop consumes at least one word per iteration, so any fuel of
at least the word count yields the same final episode list, which split_text
returns. -/
theorem c5_segmenter_terminates (t : String) (wpe : Int) (hw : 1 ≤ wpe) :
    split_text t wpe = some (chunks wpe.toNat 1 (pyWords t)) ∧
      ∀ fuel, (pyWords t).length ≤ fuel →
        splitLoop fuel (pyWords t) wpe 0 1 [] =
          some (chunks wpe.toNat 1 (pyWords t)) := by
  refine ⟨split_text_eq_chunks t wpe hw, ?_⟩
  intro fuel hfuel
  have h := splitLoop_eq_chunks wpe hw (pyWords t) fuel 0 1 [] (by omega)
  simpa using h

/-- Witness for C5 at the input "a b c" with a 2-word budget and fuel 3. -/
theorem c5_witness :
    splitLoop 3 (pyWords ("a b c")) 2 0 1 [] =
      some (chunks ((2 : Int)).toNat 1 (pyWords ("a b c"))) :=
  (c5_segmenter_terminates ("a b c") 2 (by decide)).2 3 (by decide)

/-- C7 as stated is false at the empty input: any positive budget (here 5) is
at least the word count (zero), yet zero chunks are produced, not exactly
one. -/
theorem c7_counterexample :
    split_text ("") 5 = some [] ∧
      ¬∃ es, split_text ("") 5 = some es ∧ es.length = 1 := by
  constructor
  · rfl
  · rintro ⟨es, hes, hlen⟩
    have h0 : split_text ("") 5 = some [] := rfl
    rw [h0] at hes
    injection hes with h
    subst h
    simp at hlen

/-- C7 amended: for every input text and every positive words_per_chunk,
every produced chunk except the last contains exactly words_per_chunk words
and the last chunk contains between 1 and words_per_chunk words; and when the
input has at least one word and words_per_chunk is at least the word count,
exactly one chunk is produced containing all the words. -/
theorem c7_chunk_sizes (t : String) (wpe : Int) (hw : 1 ≤ wpe)
    (es : List (Nat × String)) (hsplit : split_text t wpe = some es) :
    (∀ p ∈ es.dropLast, (pyWords p.2).length = wpe.toNat) ∧
      (∀ p, es.getLast? = some p →
        1 ≤ (pyWords p.2).length ∧ (pyWords p.2).length ≤ wpe.toNat) ∧
      (pyWords t ≠ [] → (pyWords t).length ≤ wpe.toNat →
        es = [(1, pyJoin (pyWords t))]) := by
  rw [split_text_eq_chunks t wpe hw] at hsplit
  injection hsplit with h
  subst h
  exact ⟨chunks_dropLast_count wpe.toNat (by omega) 1 (pyWords t)
      (isWordList_pyWords t),
    chunks_getLast?_count wpe.toNat (by omega) 1 (pyWords t)
      (isWordList_pyWords t),
    fun hne hlen => chunks_single wpe.toNat 1 (by omega) (pyWords t) hne hlen⟩

/-- Witness for the amended C7 at the input "a b c" with a 2-word budget. -/
theorem c7_witness :
    (∀ p ∈ ([(1, ("a b")), (2, ("c"))] : List (Nat × String)).dropLast,
        (pyWords p.2).length = ((2 : Int)).toNat) ∧
      (∀ p, ([(1, ("a b")), (2, ("c"))] : List (Nat × String)).getLast? = some p →
        1 ≤ (pyWords p.2).length ∧ (pyWords p.2).length ≤ ((2 : Int)).toNat) ∧
      (pyWords ("a b c") ≠ [] → (pyWords ("a b c")).length ≤ ((2 : Int)).toNat →
        ([(1, ("a b")), (2, ("c"))] : List (Nat × String)) =
          [(1, pyJoin (pyWords ("a b c")))]) :=
  c7_chunk_sizes ("a b c") 2 (by decide) [(1, ("a b")), (2, ("c"))] (by decide)

/-- C8: for every input text and every positive words_per_chunk, the indices
of the produced chunk sequence are the contiguous range 1, 2, ..., n with no
gaps or duplicates. -/
theorem c8_indices_contiguous (t : String) (wpe : Int) (hw : 1 ≤ wpe)
    (es : List (Nat × String)) (hsplit : split_text t wpe = some es) :
    es.map Prod.fst = List.range' 1 es.length := by
  rw [split_text_eq_chunks t wpe hw] at hsplit
  injection hsplit with h
  subst h
  exact chunks_map_fst wpe.toNat 1 (pyWords t)

/-- Witness for C8 at the input "a b c d e" with a 2-word budget. -/
theorem c8_witness :
    ([(1, ("a b")), (2, ("c d")), (3, ("e"))] :
        List (Nat × String)).map Prod.fst =
      List.range' 1 ([(1, ("a b")), (2, ("c d")), (3, ("e"))] :
        List (Nat × String)).length :=
  c8_indices_contiguous ("a b c d e") 2 (by decide)
    [(1, ("a b")), (2, ("c d")), (3, ("e"))] (by decide)

/-- C10: for every input text and every positive words_per_chunk the number
of chunks produced by segmentation equals the ceiling of the word count
divided by words_per_chunk; in particular this holds for the budget the run
computes, words_per_chunk = minutes * 180, for every positive
minutes_per_episode. -/
theorem c10_chunk_count :
    (∀ (t : String) (wpe : Int), 1 ≤ wpe → ∀ es : List (Nat × String),
        split_text t wpe = some es →
          es.length = ((pyWords t).length + wpe.toNat - 1) / wpe.toNat) ∧
      ∀ (t : String) (minutes : Int), 1 ≤ minutes →
        ∀ es : List (Nat × String), split_text t (minutes * 180) = some es →
          es.length = ((pyWords t).length + (minutes * 180).toNat - 1) /
            (minutes * 180).toNat := by
  have hgen : ∀ (t : String) (wpe : Int), 1 ≤ wpe →
      ∀ es : List (Nat × String), split_text t wpe = some es →
        es.length = ((pyWords t).length + wpe.toNat - 1) / wpe.toNat := by
    intro t wpe hw es hsplit
    rw [split_text_eq_chunks t wpe hw] at hsplit
    injection hsplit with h
    subst h
    exact chunks_length wpe.toNat (by omega) 1 (pyWords t)
  exact ⟨hgen, fun t minutes hm => hgen t (minutes * 180) (by omega)⟩

/-- Witness for C10: the 200-word document at one minute per episode gives
exactly two chunks, of 180 and 20 words. -/
theorem c10_witness :
    ([(1, demoChunk1), (2, demoChunk2)] : List (Nat × String)).length =
        ((pyWords demoText).length + (((1 : Int)) * 180).toNat - 1) /
          (((1 : Int)) * 180).toNat ∧
      (pyWords demoChunk1).length = 180 ∧ (pyWords demoChunk2).length = 20 :=
  ⟨c10_chunk_count.2 demoText 1 (by decide) [(1, demoChunk1), (2, demoChunk2)]
      (by decide),
    by decide, by decide⟩

/-! ### Claims about the Orchestrator -/

/-- C1 as stated is false: at an unknown engine the run does not fail with a
configuration error before the chunk loop.  At the concrete input below the
output directory is created, the chunk is processed (its Generating line is
logged, then a per-chunk unknown-engine error line), and the run ends in the
success popup claiming one MP3 was created, although no file was written. -/
theorem c1_counterexample :
    convert_pdf ("d.pdf") ("d") ("hello world") ("unknown-engine") 1
        synthOk synthOk =
      { dirCreated := true,
        log := [infoLine ("d.pdf"), genLine 1, unknownLine ("unknown-engine")],
        files := [], calls := [],
        outcome := ConvertOutcome.doneInfo (createdMsg 1 ("d_podcast")) } := by
  decide

/-- C1 amended: an unknown backend identifier is not rejected up front; the
engine string is dispatched per chunk inside the loop.  Each chunk logs its
Generating line followed by an unknown-engine error line; no backend call is
made and no output file is written; the output directory is still created;
and the run completes with the success popup reporting the full chunk
count. -/
theorem c1_unknown_engine (pdf_path pdf_stem text engine : String)
    (minutes : Int) (es gs : String → String → Except String Unit)
    (h1 : engine ≠ ("edge-tts")) (h2 : engine ≠ ("gtts"))
    (hstrip : ¬(pyStrip text = ("")))
    (eps : List (Nat × String))
    (hsplit : split_text text (minutes * 180) = some eps) :
    convert_pdf pdf_path pdf_stem text engine minutes es gs =
      { dirCreated := true,
        log := [infoLine pdf_path] ++
          eps.flatMap fun p => [genLine p.1, unknownLine engine],
        files := [], calls := [],
        outcome := ConvertOutcome.doneInfo
          (createdMsg eps.length (pdf_stem ++ ("_podcast"))) } := by
  have hloop := convertLoop_unknown engine h1 h2 es gs eps
    ⟨[infoLine pdf_path], [], []⟩
  exact convert_pdf_loop_none pdf_path pdf_stem text engine minutes es gs
    hstrip eps hsplit _ hloop

/-- Witness for the amended C1 at a two-word document and engine
"unknown-engine". -/
theorem c1_witness :
    convert_pdf ("d.pdf") ("d") ("hi there") ("unknown-engine") 1
        synthOk synthOk =
      { dirCreated := true,
        log := [infoLine ("d.pdf")] ++
          ([(1, ("hi there"))] : List (Nat × String)).flatMap
            fun p => [genLine p.1, unknownLine ("unknown-engine")],
        files := [], calls := [],
        outcome := ConvertOutcome.doneInfo
          (createdMsg ([(1, ("hi there"))] : List (Nat × String)).length
            (("d") ++ ("_podcast"))) } :=
  c1_unknown_engine ("d.pdf") ("d") ("hi there") ("unknown-engine") 1
    synthOk synthOk (by decide) (by decide) (by decide)
    [(1, ("hi there"))] (by decide)

/-- C2 as stated is false: when the backend raises on chunk 1 of the two-chunk
200-word document, the run aborts with the error popup; chunk 2 is never
attempted (no call to its file is made), no per-chunk outcome list exists, and
no file is written. -/
theorem c2_counterexample :
    (convert_pdf ("d.pdf") ("d") demoText ("gtts") 1 synthOk failFirst).outcome
        = ConvertOutcome.errorPopup ("boom") ∧
      (convert_pdf ("d.pdf") ("d") demoText ("gtts") 1 synthOk
        failFirst).calls = [episodeFilename 1] ∧
      (convert_pdf ("d.pdf") ("d") demoText ("gtts") 1 synthOk
        failFirst).files = [] ∧
      ¬(episodeFilename 2 ∈
        (convert_pdf ("d.pdf") ("d") demoText ("gtts") 1 synthOk
          failFirst).calls) := by
  decide

/-- C2 amended: a failure of the synthesize call of one chunk halts the run at that
chunk: the exception propagates to the top-level handler, which shows its
message as the error popup; the files written are exactly those of the
successful chunks before the failing one; the calls made are those chunks plus
the failing one, so no subsequent chunk is attempted; and no per-chunk outcome
summary is produced. -/
theorem c2_failure_halts (pdf_path pdf_stem text engine : String)
    (minutes : Int) (es gs : String → String → Except String Unit)
    (hk : engine = ("edge-tts") ∨ engine = ("gtts"))
    (hstrip : ¬(pyStrip text = ("")))
    (pre post : List (Nat × String)) (i : Nat) (t e : String)
    (hsplit : split_text text (minutes * 180) = some (pre ++ (i, t) :: post))
    (hok : ∀ p ∈ pre,
      engineSynth engine es gs p.2 (episodeFilename p.1) = Except.ok ())
    (hfail : engineSynth engine es gs t (episodeFilename i) = Except.error e) :
    (convert_pdf pdf_path pdf_stem text engine minutes es gs).outcome =
        ConvertOutcome.errorPopup e ∧
      (convert_pdf pdf_path pdf_stem text engine minutes es gs).files =
        pre.map (fun p => episodeFilename p.1) ∧
      (convert_pdf pdf_path pdf_stem text engine minutes es gs).calls =
        pre.map (fun p => episodeFilename p.1) ++ [episodeFilename i] := by
  have hloop := convertLoop_fail engine hk es gs i t e pre post
    ⟨[infoLine pdf_path], [], []⟩ hok hfail
  have h := convert_pdf_loop_some pdf_path pdf_stem text engine minutes es gs
    hstrip _ hsplit _ e hloop
  rw [h]
  exact ⟨rfl, by simp, by simp⟩

/-- Witness for the amended C2: the 200-word document on gtts with a backend
that raises on the second episode file: episode 1 is written, the run aborts
with the boom popup, and only episodes 1 and 2 were ever dispatched. -/
theorem c2_witness :
    (convert_pdf ("d.pdf") ("d") demoText ("gtts") 1 synthOk
        failSecond).outcome = ConvertOutcome.errorPopup ("boom") ∧
      (convert_pdf ("d.pdf") ("d") demoText ("gtts") 1 synthOk
        failSecond).files =
        ([(1, demoChunk1)] : List (Nat × String)).map
          (fun p => episodeFilename p.1) ∧
      (convert_pdf ("d.pdf") ("d") demoText ("gtts") 1 synthOk
        failSecond).calls =
        ([(1, demoChunk1)] : List (Nat × String)).map
          (fun p => episodeFilename p.1) ++ [episodeFilename 2] :=
  c2_failure_halts ("d.pdf") ("d") demoText ("gtts") 1 synthOk failSecond
    (Or.inr rfl) (by decide) [(1, demoChunk1)] [] 2 demoChunk2 ("boom")
    (by decide)
    (by
      rintro p hp
      rw [List.mem_singleton] at hp
      subst hp
      rfl)
    (by rfl)

/-- C3 as stated is false: with minutes_per_episode = 0 and a nonempty text
the run is not rejected with a configuration error; the Segmenter is invoked
with a zero word budget and its loop never finishes (here: fuel 50 is still
not enough, and the run result is the hung outcome). -/
theorem c3_counterexample :
    (convert_pdf ("d.pdf") ("d") ("hello world") ("gtts") 0 synthOk
        synthOk).outcome = ConvertOutcome.hung ∧
      (convert_pdf ("d.pdf") ("d") ("hello world") ("gtts") 0 synthOk
        synthOk).dirCreated = false ∧
      splitLoop 50 (pyWords ("hello world")) (0 * 180) 0 1 [] = none := by
  decide

/-- C3 amended: minutes_per_episode is never validated.  A non-positive value
is passed straight through as words_per_chunk = minutes * 180 ≤ 0, and on any
input with at least one word the Segmenter loop never terminates (no fuel
suffices), so the run hangs instead of being rejected; no directory is
created and no backend call is made, but not because of any configuration
check. -/
theorem c3_no_validation (pdf_path pdf_stem text engine : String)
    (minutes : Int) (es gs : String → String → Except String Unit)
    (hm : minutes ≤ 0) (ht : pyWords text ≠ []) :
    (∀ (fuel : Nat) (idx : Nat) (acc : List (Nat × String)),
        splitLoop fuel (pyWords text) (minutes * 180) 0 idx acc = none) ∧
      convert_pdf pdf_path pdf_stem text engine minutes es gs =
        { dirCreated := false, log := [infoLine pdf_path], files := [],
          calls := [], outcome := ConvertOutcome.hung } := by
  have hww : minutes * 180 ≤ 0 := by omega
  have hlen : 0 < (pyWords text).length := List.length_pos.mpr ht
  constructor
  · intro fuel idx acc
    exact splitLoop_none_of_nonpos (pyWords text) _ hww fuel 0 idx acc
      (by exact_mod_cast hlen)
  · have hstrip : ¬(pyStrip text = ("")) := fun h =>
      ht ((pyWords_eq_nil_iff text).mpr ((pyStrip_eq_empty_iff text).mp h))
    exact convert_pdf_hung pdf_path pdf_stem text engine minutes es gs hstrip
      (split_text_none_of_nonpos text _ hww ht)

/-- Witness for the amended C3 at the one-word text "hello" with minutes 0. -/
theorem c3_witness :
    splitLoop 7 (pyWords ("hello")) ((0 : Int) * 180) 0 1 [] = none ∧
      convert_pdf ("d.pdf") ("d") ("hello") ("gtts") 0 synthOk synthOk =
        { dirCreated := false, log := [infoLine ("d.pdf")], files := [],
          calls := [], outcome := ConvertOutcome.hung } :=
  ⟨(c3_no_validation ("d.pdf") ("d") ("hello") ("gtts") 0 synthOk synthOk
      (by decide) (by decide)).1 7 1 [],
    (c3_no_validation ("d.pdf") ("d") ("hello") ("gtts") 0 synthOk synthOk
      (by decide) (by decide)).2⟩

/-- C6: for every empty or whitespace-only input text, segmentation yields
zero chunks under any budget, and the run stops at the no-extractable-text
error popup before touching the filesystem: no output directory is created,
no file is written and no backend call is made. -/
theorem c6_no_text (pdf_path pdf_stem text engine : String)
    (minutes wpe : Int) (es gs : String → String → Except String Unit)
    (hws : ∀ c ∈ text.data, c.isWhitespace = true) :
    split_text text wpe = some [] ∧
      convert_pdf pdf_path pdf_stem text engine minutes es gs =
        { dirCreated := false, log := [infoLine pdf_path], files := [],
          calls := [], outcome := ConvertOutcome.errorPopup noTextMsg } :=
  ⟨split_text_blank text ((pyWords_eq_nil_iff text).mpr hws) wpe,
    convert_pdf_blank pdf_path pdf_stem text engine minutes es gs
      ((pyStrip_eq_empty_iff text).mpr hws)⟩

/-- Witness for C6 at the whitespace-only text " \n\t ". -/
theorem c6_witness :
    split_text (" \n\t ") 9 = some [] ∧
      convert_pdf ("d.pdf") ("d") (" \n\t ") ("gtts") 15 synthOk synthOk =
        { dirCreated := false, log := [infoLine ("d.pdf")], files := [],
          calls := [], outcome := ConvertOutcome.errorPopup noTextMsg } :=
  c6_no_text ("d.pdf") ("d") (" \n\t ") ("gtts") 15 9 synthOk synthOk
    (by decide)

/-- C9: for every chunk index n at least 1, the output filename is the fixed
episode_ prefix, the index zero-padded to at least two digits (its natural
decimal width once at least two digits), and the fixed .mp3 extension; in
particular at 1, 9, 10, 99 and 100 the names are episode_01.mp3 through
episode_100.mp3. -/
theorem c9_filenames (n : Nat) (h : 1 ≤ n) :
    episodeFilename n =
        ("episode_") ++ (if n < 10 then ("0") ++ Nat.repr n else Nat.repr n) ++
          (".mp3") ∧
      episodeFilename 1 = ("episode_01.mp3") ∧
      episodeFilename 9 = ("episode_09.mp3") ∧
      episodeFilename 10 = ("episode_10.mp3") ∧
      episodeFilename 99 = ("episode_99.mp3") ∧
      episodeFilename 100 = ("episode_100.mp3") := by
  refine ⟨?_, by decide, by decide, by decide, by decide, by decide⟩
  unfold episodeFilename
  rw [format02d_eq]

/-- Witness for C9 at index 12. -/
theorem c9_witness :
    episodeFilename 12 =
      ("episode_") ++
        (if 12 < 10 then ("0") ++ Nat.repr 12 else Nat.repr 12) ++ (".mp3") :=
  (c9_filenames 12 (by decide)).1
